import Mathlib

/-!
Shallow embedding of the HomeCasa Agent server (server.js, current add-on
version) in Lean 4, together with theorems about its request-forwarding
core: inbound authentication, upstream credential/base-URL resolution,
outbound URL construction, response classification, timeout race, and the
route-handler validation and payload rules.

Modelling conventions:
* A JavaScript environment variable or HTTP header slot is an
  `Option String` (`none` = JS `undefined`); JS truthiness of such a value
  is `jsStrTruthy` (`undefined` and `""` are falsy).
* JSON values delivered by `express.json()` or `JSON.parse` are the
  inductive `JsVal` (JSON has no `undefined`, so an absent object field is
  `Option.none` of a lookup).
* JS strings are modelled as Lean `String`; index-based primitives
  (`substring`, `split`) are modelled on the character list `String.data`.
* Wall-clock time in the upstream call is made explicit: the network's
  behaviour (when the full response body has been received, when a socket
  error fires, or that nothing ever arrives) is a parameter, and the
  `Promise.race` of the request promise against the timeout promise is
  resolved by comparing these instants.
-/

namespace HCA

/-- A JS string-or-undefined slot (environment variable or header value). -/
abbrev JsStr := Option String

/-- JS truthiness of a string-or-undefined value: `undefined` and the empty
string are falsy, every other string is truthy. -/
def jsStrTruthy : JsStr → Bool
  | none => false
  | some s => s != ""

/-- JS `a || b` on string-or-undefined values. -/
def jsOr (a b : JsStr) : JsStr := if jsStrTruthy a then a else b

/-- Test whether `pat` occurs at the head of `l`. -/
def startsWithPat : List Char → List Char → Bool
  | [], _ => true
  | _ :: _, [] => false
  | p :: ps, c :: cs => p = c && startsWithPat ps cs

/-- Whether `pat` occurs as a contiguous run anywhere in `l`. -/
def occursIn (pat : List Char) : List Char → Bool
  | [] => startsWithPat pat []
  | c :: cs => startsWithPat pat (c :: cs) || occursIn pat cs

/-- Remove the first occurrence of `pat` from `l`, leaving everything else
unchanged; if `pat` does not occur, `l` is returned verbatim. -/
def removeFirst (pat : List Char) : List Char → List Char
  | [] => []
  | c :: cs =>
      if startsWithPat pat (c :: cs) then (c :: cs).drop pat.length
      else c :: removeFirst pat cs

/-- JS `s.replace(pat, '')` for a plain-string `pat`: only the first
occurrence of `pat` is removed. -/
def jsReplaceFirst (s pat : String) : String :=
  String.mk (removeFirst pat.data s.data)

/-- JS `s.substring(0, n)` (the strings involved are plain ASCII, so
counting characters agrees with counting UTF-16 units). -/
def jsSubstring (s : String) (n : Nat) : String :=
  String.mk (s.data.take n)

/-- JS `s.split('.')[0]`: the characters of `s` before the first `'.'`
(all of `s` when it has no `'.'`). -/
def splitDotHead (s : String) : String :=
  String.mk (s.data.takeWhile (· != '.'))

/-- A JSON value as produced by `JSON.parse` / `express.json()`. -/
inductive JsVal where
  | null
  | bool (b : Bool)
  | num (n : Int)
  | str (s : String)
  | arr (elems : List JsVal)
  | obj (fields : List (String × JsVal))

/-- JS truthiness of a JSON value. -/
def jsTruthy : JsVal → Bool
  | .null => false
  | .bool b => b
  | .num n => n != 0
  | .str s => s != ""
  | .arr _ => true
  | .obj _ => true

mutual

/-- JS `String(v)` coercion, as applied by `new Error(v)` to a non-string
message: arrays join their elements with `','` (with `null` rendered
empty inside an array), plain objects render as `[object Object]`. -/
def jsToString : JsVal → String
  | .null => "null"
  | .bool b => cond b "true" "false"
  | .num n => toString n
  | .str s => s
  | .arr xs => jsArrJoin xs
  | .obj _ => "[object Object]"

/-- Array-to-string join: elements separated by `','`, with `null`
elements rendered empty (JS `Array.prototype.toString`). -/
def jsArrJoin : List JsVal → String
  | [] => ""
  | [.null] => ""
  | [v] => jsToString v
  | .null :: rest => "," ++ jsArrJoin rest
  | v :: rest => jsToString v ++ "," ++ jsArrJoin rest

end

/-- Field lookup in an object field list; the last binding for a key wins,
matching `JSON.parse` on duplicate keys. -/
def fieldLookup (k : String) : List (String × JsVal) → Option JsVal
  | [] => none
  | (k', v) :: rest =>
      match fieldLookup k rest with
      | some w => some w
      | none => if k' = k then some v else none

/-- JS property access `v[k]` for the payload keys used here: only plain
objects carry these fields; on every other JSON value the access yields
`undefined` (`none`). -/
def lookupField (v : JsVal) (k : String) : Option JsVal :=
  match v with
  | .obj fields => fieldLookup k fields
  | _ => none

/-- JS truthiness of a possibly-undefined JSON value. -/
def jsValTruthy : Option JsVal → Bool
  | none => false
  | some v => jsTruthy v

/-- Process configuration read from the environment at startup
(server.js lines 23-25 and 39): `AGENT_API_KEY`, `HA_TOKEN`,
`SUPERVISOR_TOKEN`, and the explicit `HA_BASE_URL` override. -/
structure Config where
  agentApiKey : JsStr
  haToken : JsStr
  supervisorToken : JsStr
  haBaseUrlEnv : JsStr

/-- server.js line 30: `EFFECTIVE_HA_TOKEN = SUPERVISOR_TOKEN || HA_TOKEN`. -/
def EFFECTIVE_HA_TOKEN (c : Config) : JsStr :=
  jsOr c.supervisorToken c.haToken

/-- server.js line 31: which credential was picked, for logging. -/
def TOKEN_SOURCE (c : Config) : String :=
  if jsStrTruthy c.supervisorToken then "SUPERVISOR_TOKEN"
  else if jsStrTruthy c.haToken then "HA_TOKEN"
  else "NONE"

/-- server.js lines 37-39: `HA_BASE_URL = SUPERVISOR_TOKEN ?
'http://supervisor/core' : (process.env.HA_BASE_URL ||
'http://homeassistant:8123')`. -/
def HA_BASE_URL (c : Config) : String :=
  if jsStrTruthy c.supervisorToken then "http://supervisor/core"
  else if jsStrTruthy c.haBaseUrlEnv then c.haBaseUrlEnv.getD ""
  else "http://homeassistant:8123"

/-- The two request headers the auth middleware reads
(`req.headers['x-agent-api-key']` and `req.headers['authorization']`). -/
structure Headers where
  xAgentApiKey : JsStr
  authorization : JsStr

/-- server.js line 57: `req.headers['x-agent-api-key'] ||
req.headers['authorization']?.replace('Bearer ', '')` — the dedicated
header if truthy, otherwise the Authorization header with the first
occurrence of the substring `'Bearer '` removed (`undefined` stays
`undefined` through the optional chain). -/
def extractApiKey (h : Headers) : JsStr :=
  if jsStrTruthy h.xAgentApiKey then h.xAgentApiKey
  else h.authorization.map (fun a => jsReplaceFirst a "Bearer ")

/-- The decision the auth middleware takes on a request. -/
inductive AuthDecision where
  | next
  | unauthorized (body : JsVal)

/-- server.js line 66: the fixed 401 response body. -/
def unauthorizedBody : JsVal :=
  .obj [("error", .str "Unauthorized"), ("message", .str "Invalid or missing API key")]

/-- server.js lines 49-70: the auth middleware. The health path always
passes; with no truthy configured key every request passes; otherwise a
request passes exactly when the extracted candidate strictly equals the
configured key, and is rejected with the fixed 401 body otherwise. -/
def authMiddleware (agentApiKey : JsStr) (path : String) (h : Headers) : AuthDecision :=
  if path = "/health" then .next
  else
    let apiKey := extractApiKey h
    if jsStrTruthy agentApiKey = false then .next
    else if apiKey ≠ agentApiKey then .unauthorized unauthorizedBody
    else .next

/-- server.js line 65: the logged echo of a rejected key,
`apiKey ? apiKey.substring(0, 10) + '...' : 'none'`. -/
def providedKeyPreview (apiKey : JsStr) : String :=
  if jsStrTruthy apiKey then jsSubstring (apiKey.getD "") 10 ++ "..."
  else "none"

/-- server.js line 81: the regex `\/$` with replacement `''` strips one
trailing slash from the base URL. -/
def stripTrailingSlash (s : String) : String :=
  if s.data.getLast? = some '/' then String.mk s.data.dropLast else s

/-- server.js line 81: `fullUrl = HA_BASE_URL.replace(/\/$/, '') + path`. -/
def fullUrl (base path : String) : String :=
  stripTrailingSlash base ++ path

/-- server.js line 107: `REQUEST_TIMEOUT = 15000` milliseconds. -/
def REQUEST_TIMEOUT : Nat := 15000

/-- server.js line 156: the socket-level backstop is armed at
`REQUEST_TIMEOUT + 5000` milliseconds. -/
def SOCKET_TIMEOUT_EXTRA : Nat := 5000

/-- The outbound HTTP request haRequest assembles (server.js lines 81 and
95-104, with `options` recombined into the full URL it addresses). -/
structure OutboundCall where
  url : String
  method : String
  authHeader : String
  contentType : String
  body : Option JsVal

/-- Behaviour of the upstream network on one call, made explicit: either
the full response body is received at instant `time` (with its status,
raw text, and the result of `JSON.parse` on it, `none` when the text does
not parse), or the request errors at instant `time`, or nothing ever
arrives. Instants are milliseconds from call start. -/
inductive NetBehavior where
  | responds (time : Nat) (status : Nat) (data : String) (parsed : Option JsVal)
  | errs (time : Nat) (msg : String)
  | silent

/-- How one haRequest invocation settles. -/
inductive HaOutcome where
  | thrown (msg : String)
  | resolved (v : JsVal)
  | rejected (msg : String)

/-- The result of one haRequest invocation: the outbound call it made
(`none` when it threw before any network attempt), how its promise
settled, and the instant at which it settled (`none` for the immediate
throw). -/
structure HaCallResult where
  outbound : Option OutboundCall
  outcome : HaOutcome
  settleTime : Option Nat

/-- server.js lines 133-146: classification of a completed response.
`parsed` is the `JSON.parse` result on the body (`none` when parsing
throws). A parse with status below 400 resolves with the parsed value
(`parsed.message` is never touched on that path); a parse failure with
status below 400 resolves with the raw text. At status 400 and above: a
body parsing to JSON `null` makes the access `parsed.message` itself
throw a TypeError inside the try block, so the catch handler rejects
exactly as for an unparseable body (on every other JSON value the access
merely yields the field or `undefined`); otherwise a truthy `message`
field is the rejection message (coerced to a string as `new Error`
does), a parsed body without one rejects with `HA returned <status>`,
and an unparseable body rejects with `HA returned <status>: ` plus the
body truncated to 200 characters. -/
def classifyResponse (status : Nat) (data : String) (parsed : Option JsVal) : HaOutcome :=
  match parsed with
  | some v =>
      if 400 ≤ status then
        match v with
        | .null =>
            .rejected ("HA returned " ++ toString status ++ ": " ++ jsSubstring data 200)
        | _ =>
            .rejected
              (match lookupField v "message" with
               | some m => if jsTruthy m then jsToString m else "HA returned " ++ toString status
               | none => "HA returned " ++ toString status)
      else .resolved v
  | none =>
      if 400 ≤ status then
        .rejected ("HA returned " ++ toString status ++ ": " ++ jsSubstring data 200)
      else .resolved (.str data)

/-- The rejection message of the timeout promise (server.js line 111). -/
def timeoutMessage : String :=
  "Request timeout after " ++ toString REQUEST_TIMEOUT ++ "ms"

/-- server.js lines 74-169: one haRequest invocation. With no truthy
effective token it throws `No HA token configured` before any network
activity. Otherwise it builds the outbound call (concatenated URL, bearer
header, JSON content type) and races the request promise against a
timeout promise that rejects at `REQUEST_TIMEOUT`: a response or socket
error that completes strictly before the budget settles the race with its
own outcome at its own instant; otherwise the timeout promise settles the
race at exactly `REQUEST_TIMEOUT` (in particular the socket backstop at
`REQUEST_TIMEOUT + 5000` never decides the race). -/
def haRequest (c : Config) (method path : String) (body : Option JsVal)
    (net : NetBehavior) : HaCallResult :=
  if jsStrTruthy (EFFECTIVE_HA_TOKEN c) = false then
    { outbound := none, outcome := .thrown "No HA token configured", settleTime := none }
  else
    let token := (EFFECTIVE_HA_TOKEN c).getD ""
    let call : OutboundCall :=
      { url := fullUrl (HA_BASE_URL c) path
        method := method
        authHeader := "Bearer " ++ token
        contentType := "application/json"
        body := body }
    match net with
    | .responds t status data parsed =>
        if t < REQUEST_TIMEOUT then
          { outbound := some call, outcome := classifyResponse status data parsed,
            settleTime := some t }
        else
          { outbound := some call, outcome := .rejected timeoutMessage,
            settleTime := some REQUEST_TIMEOUT }
    | .errs t msg =>
        if t < REQUEST_TIMEOUT then
          { outbound := some call, outcome := .rejected msg, settleTime := some t }
        else
          { outbound := some call, outcome := .rejected timeoutMessage,
            settleTime := some REQUEST_TIMEOUT }
    | .silent =>
        { outbound := some call, outcome := .rejected timeoutMessage,
          settleTime := some REQUEST_TIMEOUT }

/-- What a route handler does with a request body before any upstream
call: reject locally with a client error, dispatch one upstream call, or
throw a TypeError (caught by the handler's try block) when a non-string
truthy `entity_id` reaches `.split`. -/
inductive HandlerStep where
  | clientError (status : Nat) (body : JsVal)
  | upstream (method : String) (path : String) (payload : Option JsVal)
  | typeError (msg : String)

/-- The fixed 400 body of the toggle, turn-on and turn-off handlers. -/
def missingEntityBody : JsVal :=
  .obj [("error", .str "Missing entity_id")]

/-- Fields contributed by an object spread `{ ...v }`: the fields of a
plain object, nothing for `undefined`, `null`, numbers or booleans (the
handlers are never fed a string here, so string index-spreading is not
modelled). -/
def spreadFields : Option JsVal → List (String × JsVal)
  | some (.obj fs) => fs
  | _ => []

/-- server.js lines 210-231: the call-service handler. Missing or falsy
`domain` or `service` is rejected locally with a 400 before any upstream
call; otherwise the payload is the spread of `service_data` with a truthy
`entity_id` assigned on top, sent to `/api/services/<domain>/<service>`. -/
def callServiceHandler (body : JsVal) : HandlerStep :=
  let domain := lookupField body "domain"
  let service := lookupField body "service"
  let entityId := lookupField body "entity_id"
  let sdata := lookupField body "service_data"
  if jsValTruthy domain = false || jsValTruthy service = false then
    .clientError 400 (.obj [("error", .str "Missing domain or service")])
  else
    let payload := spreadFields sdata ++
      (if jsValTruthy entityId then [("entity_id", entityId.getD .null)] else [])
    .upstream "POST"
      ("/api/services/" ++ jsToString (domain.getD .null) ++ "/" ++ jsToString (service.getD .null))
      (some (.obj payload))

/-- server.js lines 233-250: the toggle handler. Falsy or missing
`entity_id` is rejected locally with a 400 before any upstream call;
otherwise the domain is the entity id's characters before the first `'.'`
and the payload carries only `entity_id`. -/
def toggleHandler (body : JsVal) : HandlerStep :=
  match lookupField body "entity_id" with
  | some (.str s) =>
      if s = "" then .clientError 400 missingEntityBody
      else .upstream "POST" ("/api/services/" ++ splitDotHead s ++ "/toggle")
        (some (.obj [("entity_id", .str s)]))
  | some v =>
      if jsTruthy v then .typeError "entity_id.split is not a function"
      else .clientError 400 missingEntityBody
  | none => .clientError 400 missingEntityBody

/-- server.js lines 252-273: the turn-on handler. Falsy or missing
`entity_id` is rejected locally with a 400; otherwise the payload starts
from `entity_id` and gains `brightness` and `brightness_pct` exactly when
those fields are present in the request body (`!== undefined`, so even
falsy supplied values are forwarded and absent ones are never
defaulted). -/
def turnOnHandler (body : JsVal) : HandlerStep :=
  match lookupField body "entity_id" with
  | some (.str s) =>
      if s = "" then .clientError 400 missingEntityBody
      else
        let payload := [("entity_id", JsVal.str s)] ++
          (match lookupField body "brightness" with
           | some b => [("brightness", b)]
           | none => []) ++
          (match lookupField body "brightness_pct" with
           | some b => [("brightness_pct", b)]
           | none => [])
        .upstream "POST" ("/api/services/" ++ splitDotHead s ++ "/turn_on")
          (some (.obj payload))
  | some v =>
      if jsTruthy v then .typeError "entity_id.split is not a function"
      else .clientError 400 missingEntityBody
  | none => .clientError 400 missingEntityBody

/-- server.js lines 275-292: the turn-off handler; identical to toggle
but targeting `turn_off`. -/
def turnOffHandler (body : JsVal) : HandlerStep :=
  match lookupField body "entity_id" with
  | some (.str s) =>
      if s = "" then .clientError 400 missingEntityBody
      else .upstream "POST" ("/api/services/" ++ splitDotHead s ++ "/turn_off")
        (some (.obj [("entity_id", .str s)]))
  | some v =>
      if jsTruthy v then .typeError "entity_id.split is not a function"
      else .clientError 400 missingEntityBody
  | none => .clientError 400 missingEntityBody

/-- Modelled from the claim wording, for comparison with the code: the
candidate key obtained by removing only a leading `Bearer ` PREFIX of the
Authorization header (dedicated header first when truthy). -/
def specBearerCandidate (h : Headers) : JsStr :=
  if jsStrTruthy h.xAgentApiKey then h.xAgentApiKey
  else h.authorization.map (fun a =>
    if startsWithPat "Bearer ".data a.data then String.mk (a.data.drop 7) else a)

theorem startsWithPat_self_append (p l : List Char) :
    startsWithPat p (p ++ l) = true := by
  induction p with
  | nil => rfl
  | cons c cs ih => simp [startsWithPat, ih]

theorem removeFirst_self_append (p l : List Char) :
    removeFirst p (p ++ l) = l := by
  match p, l with
  | [], [] => rfl
  | [], c :: cs => simp [removeFirst, startsWithPat]
  | a :: as, l =>
    show removeFirst (a :: as) (a :: (as ++ l)) = l
    have h1 : (a :: (as ++ l)) = (a :: as) ++ l := rfl
    simp only [removeFirst, h1, startsWithPat_self_append, if_true]
    exact List.drop_left _ _

theorem removeFirst_of_occursIn_eq_false (p : List Char) :
    ∀ l, occursIn p l = false → removeFirst p l = l := by
  intro l
  induction l with
  | nil => intro _; rfl
  | cons c cs ih =>
    intro h
    simp only [occursIn, Bool.or_eq_false_iff] at h
    simp [removeFirst, h.1, ih h.2]

theorem jsReplaceFirst_leading (v : String) :
    jsReplaceFirst ("Bearer " ++ v) "Bearer " = v := by
  unfold jsReplaceFirst
  have h : ("Bearer " ++ v).data = "Bearer ".data ++ v.data := String.data_append ..
  rw [h, removeFirst_self_append]

theorem jsReplaceFirst_of_no_occurrence (s pat : String)
    (h : occursIn pat.data s.data = false) : jsReplaceFirst s pat = s := by
  unfold jsReplaceFirst
  rw [removeFirst_of_occursIn_eq_false _ _ h]

/-- C1 counterexample: with configured key `xk` and an Authorization
header `xBearer k` — which has no `Bearer ` prefix, so the claim's
candidate is the header itself and differs from the key — the request
nevertheless passes authentication: the code removes the first occurrence
of the substring `'Bearer '` anywhere in the header, not only a prefix. -/
theorem authMiddleware_bearer_substring_cex :
    specBearerCandidate ⟨none, some "xBearer k"⟩ ≠ some "xk" ∧
    authMiddleware (some "xk") "/p" ⟨none, some "xBearer k"⟩ = .next :=
  ⟨by decide, rfl⟩

/-- C1 (amended): for every inbound request, the health path passes; with
no truthy configured inbound key every request passes; otherwise the
candidate key is the dedicated header or, failing that, the Authorization
header with the first occurrence of the substring `'Bearer '` removed,
and the request passes if and only if that candidate equals the
configured key exactly, any mismatch or absence yielding the 401
rejection with its fixed body. -/
theorem authMiddleware_auth_rule (cfgKey : JsStr) (path : String) (h : Headers) :
    (path = "/health" → authMiddleware cfgKey path h = .next) ∧
    (jsStrTruthy cfgKey = false → authMiddleware cfgKey path h = .next) ∧
    (path ≠ "/health" → jsStrTruthy cfgKey = true →
      (authMiddleware cfgKey path h = .next ↔ extractApiKey h = cfgKey) ∧
      (extractApiKey h ≠ cfgKey →
        authMiddleware cfgKey path h = .unauthorized unauthorizedBody)) := by
  refine ⟨?_, ?_, ?_⟩
  · intro hp; simp [authMiddleware, hp]
  · intro hk
    unfold authMiddleware
    split
    · rfl
    · simp [hk]
  · intro hp hk
    refine ⟨⟨?_, ?_⟩, ?_⟩
    · intro hn
      by_contra hne
      simp [authMiddleware, hp, hk, hne] at hn
    · intro he
      simp [authMiddleware, hp, hk, he]
    · intro hne
      simp [authMiddleware, hp, hk, hne]

theorem authMiddleware_auth_rule_witness :
    authMiddleware (some "k1") "/ha/states" ⟨some "k1", none⟩ = .next :=
  ((authMiddleware_auth_rule (some "k1") "/ha/states" ⟨some "k1", none⟩).2.2
      (by decide) (by rfl)).1.mpr (by rfl)

/-- C9 counterexample: a rejected attempt whose received key is exactly 13
characters ending in three dots — the logged preview (first 10 characters
plus `...`) equals the full inbound value, so the logged echo is not
always distinct from the full inbound value. -/
theorem unauthorized_preview_cex :
    authMiddleware (some "secret") "/p" ⟨some "aaaaaaaaaa...", none⟩
      = .unauthorized unauthorizedBody ∧
    providedKeyPreview (extractApiKey ⟨some "aaaaaaaaaa...", none⟩)
      = "aaaaaaaaaa..." :=
  ⟨rfl, rfl⟩

/-- C9 (amended): the unauthorized response body is the single fixed value
independent of the configured key and of the inbound key, so it cannot
leak either; and the logged echo of the received value is `none` for an
absent or empty candidate and otherwise its first 10 characters followed
by an ellipsis marker, so it is fully determined by the first 10
characters of the received value and reveals nothing beyond them (for
inbound values of length 13 ending in `...` this determined preview
coincides with the full value). -/
theorem unauthorized_no_leak :
    (∀ (cfgKey : JsStr) (path : String) (hd : Headers) (b : JsVal),
        authMiddleware cfgKey path hd = .unauthorized b → b = unauthorizedBody) ∧
    (∀ s t : String, s.data.take 10 = t.data.take 10 →
        providedKeyPreview (some s) = providedKeyPreview (some t)) := by
  constructor
  · intro cfgKey path hd b h
    unfold authMiddleware at h
    split at h
    · simp at h
    · split at h
      · simp at h
      · simp only [] at h
        split at h
        · simp only [AuthDecision.unauthorized.injEq] at h
          exact h.symm
        · simp at h
  · intro s t hst
    have hiff : s = "" ↔ t = "" := by
      constructor
      · intro hs
        subst hs
        simp only [show ("" : String).data = [] from rfl, List.take_nil] at hst
        have : t.data = [] := by
          rcases List.take_eq_nil_iff.mp hst.symm with h | h
          · omega
          · exact h
        cases t
        simp_all
      · intro ht
        subst ht
        simp only [show ("" : String).data = [] from rfl, List.take_nil] at hst
        have : s.data = [] := by
          rcases List.take_eq_nil_iff.mp hst with h | h
          · omega
          · exact h
        cases s
        simp_all
    by_cases hs : s = ""
    · have ht : t = "" := hiff.mp hs
      subst hs; subst ht; rfl
    · have ht : t ≠ "" := fun h => hs (hiff.mpr h)
      simp [providedKeyPreview, jsStrTruthy, jsSubstring, bne_iff_ne, hs, ht, hst]

theorem unauthorized_no_leak_witness :
    providedKeyPreview (some "0123456789AAAA")
      = providedKeyPreview (some "0123456789BBBB") :=
  unauthorized_no_leak.2 "0123456789AAAA" "0123456789BBBB" (by rfl)

/-- C10 counterexample: with configured key `aBearer b`, an Authorization
header equal to the key verbatim and carrying no `Bearer ` prefix is
nevertheless rejected with 401: the replace step removes the internal
occurrence of `'Bearer '`, turning the candidate into `ab`. -/
theorem bearer_substring_key_cex :
    startsWithPat "Bearer ".data "aBearer b".data = false ∧
    authMiddleware (some "aBearer b") "/p" ⟨none, some "aBearer b"⟩
      = .unauthorized unauthorizedBody :=
  ⟨rfl, rfl⟩

/-- C10 (amended): only the first occurrence of the substring `'Bearer '`
is removed from the Authorization header (a leading occurrence is dropped
with the remainder kept verbatim); an Authorization header equal to the
configured key verbatim authenticates successfully provided the key does
not contain the substring `'Bearer '`; and the dedicated header takes
precedence only when its value is non-empty — an empty dedicated header
falls through to the Authorization header. -/
theorem extract_edge_cases :
    (∀ v : String, jsReplaceFirst ("Bearer " ++ v) "Bearer " = v) ∧
    (∀ (key path : String), key ≠ "" → path ≠ "/health" →
        occursIn "Bearer ".data key.data = false →
        authMiddleware (some key) path ⟨none, some key⟩ = .next) ∧
    (∀ auth : JsStr, extractApiKey ⟨some "", auth⟩ = extractApiKey ⟨none, auth⟩) := by
  refine ⟨jsReplaceFirst_leading, ?_, fun _ => rfl⟩
  intro key path hk hp hocc
  have ht : jsStrTruthy (some key) = true := by
    simp [jsStrTruthy, bne_iff_ne, hk]
  have hext : extractApiKey ⟨none, some key⟩ = some key := by
    simp [extractApiKey, jsStrTruthy, jsReplaceFirst_of_no_occurrence _ _ hocc]
  simp [authMiddleware, hp, ht, hext]

theorem extract_edge_cases_witness :
    authMiddleware (some "mykey") "/ha/states" ⟨none, some "mykey"⟩ = .next :=
  extract_edge_cases.2.1 "mykey" "/ha/states" (by decide) (by decide) (by rfl)

/-- C2: the effective upstream target rule, first match wins: a truthy
supervisor token forces the supervisor token itself and the internal
proxy address `http://supervisor/core` regardless of any explicit
base-URL override; otherwise a truthy long-lived token is used together
with the explicit override when one is configured, else the default
direct address. -/
theorem credentialResolver_rule (c : Config) :
    (jsStrTruthy c.supervisorToken = true →
        EFFECTIVE_HA_TOKEN c = c.supervisorToken ∧
        HA_BASE_URL c = "http://supervisor/core") ∧
    (jsStrTruthy c.supervisorToken = false → jsStrTruthy c.haToken = true →
        EFFECTIVE_HA_TOKEN c = c.haToken ∧
        (∀ u : String, c.haBaseUrlEnv = some u → u ≠ "" → HA_BASE_URL c = u) ∧
        (jsStrTruthy c.haBaseUrlEnv = false →
            HA_BASE_URL c = "http://homeassistant:8123")) := by
  constructor
  · intro hs
    simp [EFFECTIVE_HA_TOKEN, HA_BASE_URL, jsOr, hs]
  · intro hs _
    refine ⟨?_, ?_, ?_⟩
    · simp [EFFECTIVE_HA_TOKEN, jsOr, hs]
    · intro u hu hne
      have ht : jsStrTruthy (some u) = true := by
        simp [jsStrTruthy, bne_iff_ne, hne]
      simp [HA_BASE_URL, hs, hu, ht]
    · intro hb
      simp [HA_BASE_URL, hs, hb]

theorem credentialResolver_rule_witness :
    EFFECTIVE_HA_TOKEN ⟨none, some "llt", some "sup", some "http://other:1"⟩
      = some "sup" ∧
    HA_BASE_URL ⟨none, some "llt", some "sup", some "http://other:1"⟩
      = "http://supervisor/core" :=
  (credentialResolver_rule ⟨none, some "llt", some "sup", some "http://other:1"⟩).1
    (by rfl)

/-- C3: every outbound call addresses the resolved base URL with one
trailing slash stripped, concatenated with the given upstream path; a
base URL with no trailing slash — in particular the supervisor proxy
address with its `/core` path component — is preserved verbatim as a
prefix of the outbound URL, never replaced by absolute-path URL
resolution. -/
theorem haRequest_url_concat (c : Config) (method path : String)
    (body : Option JsVal) (net : NetBehavior)
    (htok : jsStrTruthy (EFFECTIVE_HA_TOKEN c) = true) :
    ∃ call : OutboundCall,
      (haRequest c method path body net).outbound = some call ∧
      call.url = stripTrailingSlash (HA_BASE_URL c) ++ path ∧
      ((HA_BASE_URL c).data.getLast? ≠ some '/' →
          call.url = HA_BASE_URL c ++ path) ∧
      (jsStrTruthy c.supervisorToken = true →
          call.url = "http://supervisor/core" ++ path) := by
  refine ⟨{ url := fullUrl (HA_BASE_URL c) path
            method := method
            authHeader := "Bearer " ++ (EFFECTIVE_HA_TOKEN c).getD ""
            contentType := "application/json"
            body := body }, ?_, ?_, ?_, ?_⟩
  · unfold haRequest
    simp only [htok, Bool.true_eq_false, if_false]
    cases net with
    | responds t status data parsed => by_cases ht : t < REQUEST_TIMEOUT <;> simp [ht]
    | errs t msg => by_cases ht : t < REQUEST_TIMEOUT <;> simp [ht]
    | silent => rfl
  · rfl
  · intro hns
    simp [fullUrl, stripTrailingSlash, hns]
  · intro hsup
    rw [show HA_BASE_URL c = "http://supervisor/core" by simp [HA_BASE_URL, hsup]]
    rfl

theorem haRequest_url_concat_witness :
    ∃ call : OutboundCall,
      (haRequest ⟨none, none, some "sup", none⟩ "GET" "/api/states" none
          .silent).outbound = some call ∧
      call.url = stripTrailingSlash (HA_BASE_URL ⟨none, none, some "sup", none⟩)
          ++ "/api/states" ∧
      ((HA_BASE_URL ⟨none, none, some "sup", none⟩).data.getLast? ≠ some '/' →
          call.url = HA_BASE_URL ⟨none, none, some "sup", none⟩ ++ "/api/states") ∧
      (jsStrTruthy (Config.supervisorToken ⟨none, none, some "sup", none⟩) = true →
          call.url = "http://supervisor/core" ++ "/api/states") :=
  haRequest_url_concat ⟨none, none, some "sup", none⟩ "GET" "/api/states" none
    .silent (by rfl)

/-- C4: with neither a truthy supervisor token nor a truthy long-lived
token, every haRequest invocation throws the configuration error
`No HA token configured` immediately: no outbound call is recorded and no
network race ever settles, whatever the network would have done. -/
theorem haRequest_no_token_fail (c : Config) (method path : String)
    (body : Option JsVal) (net : NetBehavior)
    (hsup : jsStrTruthy c.supervisorToken = false)
    (hha : jsStrTruthy c.haToken = false) :
    haRequest c method path body net =
      { outbound := none, outcome := .thrown "No HA token configured",
        settleTime := none } := by
  have h : jsStrTruthy (EFFECTIVE_HA_TOKEN c) = false := by
    simp [EFFECTIVE_HA_TOKEN, jsOr, hsup, hha]
  simp [haRequest, h]

theorem haRequest_no_token_fail_witness :
    haRequest ⟨some "k", none, none, some "http://x:1"⟩ "GET" "/api/states"
        none (.responds 5 200 "ok" none) =
      { outbound := none, outcome := .thrown "No HA token configured",
        settleTime := none } :=
  haRequest_no_token_fail ⟨some "k", none, none, some "http://x:1"⟩ "GET"
    "/api/states" none (.responds 5 200 "ok" none) (by rfl) (by rfl)

/-- C5 counterexample: a 404 response whose body is the text `null`
parses as JSON (to `null`) and carries no usable `message` field, so the
claim's taxonomy predicts the rejection `HA returned 404`; the program
instead rejects with `HA returned 404: null`, because the access
`parsed.message` on JSON `null` throws a TypeError inside the try block
and the catch handler runs the unparseable-body path. -/
theorem classify_null_body_cex :
    (haRequest ⟨none, none, some "sup", none⟩ "GET" "/api/states" none
        (.responds 3 404 "null" (some .null))).outcome
      = .rejected ("HA returned 404: null") ∧
    (haRequest ⟨none, none, some "sup", none⟩ "GET" "/api/states" none
        (.responds 3 404 "null" (some .null))).outcome
      ≠ .rejected ("HA returned 404") := by
  have h1 : (haRequest ⟨none, none, some "sup", none⟩ "GET" "/api/states" none
      (.responds 3 404 "null" (some .null))).outcome
        = .rejected ("HA returned 404: null") := rfl
  refine ⟨h1, ?_⟩
  rw [h1]
  simp only [ne_eq, HaOutcome.rejected.injEq]
  decide

/-- C5 (amended): classification of every completed upstream response
(body fully received before the timeout budget): status below 400 with a
JSON-parseable body resolves with the parsed value; status below 400
with an unparseable body resolves with the raw text; status 400 and
above with a parsed body other than JSON `null` carrying a truthy
`message` field rejects with that message (string-coerced); status 400
and above with a parsed body other than JSON `null` but no truthy
`message` rejects with `HA returned <status>`; and status 400 and above
with an unparseable body — or with a body parsing to JSON `null`, whose
`message`-field access throws a TypeError handled by the same catch
path — rejects with `HA returned <status>: ` plus the body truncated to
200 characters. -/
theorem haRequest_response_classification (c : Config) (method path : String)
    (body : Option JsVal) (t status : Nat) (data : String)
    (parsed : Option JsVal)
    (htok : jsStrTruthy (EFFECTIVE_HA_TOKEN c) = true)
    (ht : t < REQUEST_TIMEOUT) :
    ((haRequest c method path body (.responds t status data parsed)).outcome
        = classifyResponse status data parsed) ∧
    (∀ v, parsed = some v → status < 400 →
        classifyResponse status data parsed = .resolved v) ∧
    (parsed = none → status < 400 →
        classifyResponse status data parsed = .resolved (.str data)) ∧
    (∀ v m, parsed = some v → v ≠ .null → 400 ≤ status →
        lookupField v "message" = some m → jsTruthy m = true →
        classifyResponse status data parsed = .rejected (jsToString m)) ∧
    (∀ v, parsed = some v → v ≠ .null → 400 ≤ status →
        (∀ m, lookupField v "message" = some m → jsTruthy m = false) →
        classifyResponse status data parsed
          = .rejected ("HA returned " ++ toString status)) ∧
    (parsed = some .null → 400 ≤ status →
        classifyResponse status data parsed
          = .rejected ("HA returned " ++ toString status ++ ": "
              ++ jsSubstring data 200)) ∧
    (parsed = none → 400 ≤ status →
        classifyResponse status data parsed
          = .rejected ("HA returned " ++ toString status ++ ": "
              ++ jsSubstring data 200)) := by
  refine ⟨?_, ?_, ?_, ?_, ?_, ?_, ?_⟩
  · simp [haRequest, htok, ht]
  · intro v hv hst
    have h4 : ¬ (400 ≤ status) := by omega
    simp [classifyResponse, hv, h4]
  · intro hv hst
    have h4 : ¬ (400 ≤ status) := by omega
    simp [classifyResponse, hv, h4]
  · intro v m hv hnn h4 hm htr
    subst hv
    cases v <;>
      first
      | exact absurd rfl hnn
      | simp [classifyResponse, h4, hm, htr]
  · intro v hv hnn h4 hm
    subst hv
    cases hlf : lookupField v "message" with
    | none =>
      cases v <;>
        first
        | exact absurd rfl hnn
        | simp [classifyResponse, h4, hlf]
    | some m =>
      have hmf := hm m hlf
      cases v <;>
        first
        | exact absurd rfl hnn
        | simp [classifyResponse, h4, hlf, hmf]
  · intro hv h4
    simp [classifyResponse, hv, h4]
  · intro hv h4
    simp [classifyResponse, hv, h4]

theorem haRequest_response_classification_witness :
    classifyResponse 404 ""
        (some (.obj [("message", .str "Entity not found")]))
      = .rejected (jsToString (.str "Entity not found")) :=
  (haRequest_response_classification ⟨none, none, some "sup", none⟩ "GET"
      "/api/states/light.kitchen" none 3 404 ""
      (some (.obj [("message", .str "Entity not found")]))
      (by rfl) (by decide)).2.2.2.1
    (.obj [("message", .str "Entity not found")]) (.str "Entity not found")
    rfl (by simp) (by decide) (by rfl) (by rfl)

/-- C7: the upstream call is decided by a race between the response and a
single timeout budget of `REQUEST_TIMEOUT = 15000` milliseconds measured
from call start to full response body received: a response completing
strictly within the budget decides the outcome at its own instant and
the timeout is ignored; otherwise the call fails with the timeout
rejection at exactly the budget — not earlier, not later — including
when the upstream never responds, in which case the later socket-level
backstop (armed `SOCKET_TIMEOUT_EXTRA` milliseconds after the budget)
never decides the race. -/
theorem haRequest_timeout_budget (c : Config) (method path : String)
    (body : Option JsVal)
    (htok : jsStrTruthy (EFFECTIVE_HA_TOKEN c) = true) :
    (∀ t status data parsed, t < REQUEST_TIMEOUT →
        (haRequest c method path body
            (.responds t status data parsed)).outcome
          = classifyResponse status data parsed ∧
        (haRequest c method path body
            (.responds t status data parsed)).settleTime = some t) ∧
    (∀ t status data parsed, REQUEST_TIMEOUT ≤ t →
        (haRequest c method path body
            (.responds t status data parsed)).outcome
          = .rejected timeoutMessage ∧
        (haRequest c method path body
            (.responds t status data parsed)).settleTime
          = some REQUEST_TIMEOUT) ∧
    ((haRequest c method path body .silent).outcome
        = .rejected timeoutMessage ∧
     (haRequest c method path body .silent).settleTime
        = some REQUEST_TIMEOUT) ∧
    (timeoutMessage = "Request timeout after 15000ms" ∧
     REQUEST_TIMEOUT < REQUEST_TIMEOUT + SOCKET_TIMEOUT_EXTRA) := by
  refine ⟨?_, ?_, ?_, by constructor <;> decide⟩
  · intro t status data parsed ht
    constructor <;> simp [haRequest, htok, ht]
  · intro t status data parsed ht
    have ht' : ¬ (t < REQUEST_TIMEOUT) := by omega
    constructor <;> simp [haRequest, htok, ht']
  · constructor <;> simp [haRequest, htok]

theorem haRequest_timeout_budget_witness :
    (haRequest ⟨none, none, some "sup", none⟩ "GET" "/api/states" none
        .silent).outcome = .rejected timeoutMessage ∧
    (haRequest ⟨none, none, some "sup", none⟩ "GET" "/api/states" none
        .silent).settleTime = some REQUEST_TIMEOUT :=
  (haRequest_timeout_budget ⟨none, none, some "sup", none⟩ "GET"
      "/api/states" none (by rfl)).2.2.1

/-- C6: each mutating route handler rejects a request missing (or
carrying a falsy) required field locally with a 400 client error and
dispatches no upstream call: call-service without a truthy `domain` or
`service`, and toggle, turn-on and turn-off without a truthy
`entity_id`. -/
theorem handlers_reject_missing_fields :
    (∀ body : JsVal,
        (jsValTruthy (lookupField body "domain") = false ∨
         jsValTruthy (lookupField body "service") = false) →
        callServiceHandler body
          = .clientError 400 (.obj [("error", .str "Missing domain or service")])) ∧
    (∀ body : JsVal, jsValTruthy (lookupField body "entity_id") = false →
        toggleHandler body = .clientError 400 missingEntityBody ∧
        turnOnHandler body = .clientError 400 missingEntityBody ∧
        turnOffHandler body = .clientError 400 missingEntityBody) := by
  constructor
  · intro body h
    unfold callServiceHandler
    rcases h with h | h <;> simp [h]
  · intro body h
    cases hl : lookupField body "entity_id" with
    | none => refine ⟨?_, ?_, ?_⟩ <;> simp [toggleHandler, turnOnHandler, turnOffHandler, hl]
    | some v =>
      have hv : jsTruthy v = false := by
        rw [hl] at h
        simpa [jsValTruthy] using h
      cases v with
      | str s =>
        have hs : s = "" := by simpa [jsTruthy] using hv
        refine ⟨?_, ?_, ?_⟩ <;>
          simp [toggleHandler, turnOnHandler, turnOffHandler, hl, hs]
      | null =>
        refine ⟨?_, ?_, ?_⟩ <;>
          simp [toggleHandler, turnOnHandler, turnOffHandler, hl, jsTruthy]
      | bool b =>
        have hb : b = false := by simpa [jsTruthy] using hv
        refine ⟨?_, ?_, ?_⟩ <;>
          simp [toggleHandler, turnOnHandler, turnOffHandler, hl, jsTruthy, hb]
      | num n =>
        have hn : n = 0 := by simpa [jsTruthy] using hv
        refine ⟨?_, ?_, ?_⟩ <;>
          simp [toggleHandler, turnOnHandler, turnOffHandler, hl, jsTruthy, hn]
      | arr xs => simp [jsTruthy] at hv
      | obj fs => simp [jsTruthy] at hv

theorem handlers_reject_missing_fields_witness :
    callServiceHandler (.obj [("domain", .str "light")])
      = .clientError 400 (.obj [("error", .str "Missing domain or service")]) :=
  handlers_reject_missing_fields.1 (.obj [("domain", .str "light")])
    (Or.inr (by rfl))

/-- C8: for every valid turn-on request - a truthy string `entity_id` -
the outbound call is a POST to `/api/services/<domain>/turn_on` with the
domain the characters of the entity id before its first `'.'`, and the
outbound payload carries `entity_id` plus exactly those of the
`brightness` and `brightness_pct` fields supplied in the request: the
payload's field equals the request's own field, and a field absent from
the request is absent from the payload, never defaulted. -/
theorem turnOn_upstream_shape (body : JsVal) (s : String) (hs : s ≠ "")
    (he : lookupField body "entity_id" = some (.str s)) :
    ∃ payload : List (String × JsVal),
      turnOnHandler body
        = .upstream "POST" ("/api/services/" ++ splitDotHead s ++ "/turn_on")
            (some (.obj payload)) ∧
      fieldLookup "entity_id" payload = some (.str s) ∧
      fieldLookup "brightness" payload = lookupField body "brightness" ∧
      fieldLookup "brightness_pct" payload = lookupField body "brightness_pct" := by
  refine ⟨[("entity_id", JsVal.str s)] ++
      (match lookupField body "brightness" with
       | some b => [("brightness", b)]
       | none => []) ++
      (match lookupField body "brightness_pct" with
       | some b => [("brightness_pct", b)]
       | none => []), ?_, ?_, ?_, ?_⟩ <;>
    cases hb1 : lookupField body "brightness" <;>
    cases hb2 : lookupField body "brightness_pct" <;>
    simp [turnOnHandler, he, hs, hb1, hb2, fieldLookup]

theorem turnOn_upstream_shape_witness :
    ∃ payload : List (String × JsVal),
      turnOnHandler (.obj [("entity_id", .str "light.kitchen"),
          ("brightness_pct", .num 50)])
        = .upstream "POST"
            ("/api/services/" ++ splitDotHead "light.kitchen" ++ "/turn_on")
            (some (.obj payload)) ∧
      fieldLookup "entity_id" payload = some (.str "light.kitchen") ∧
      fieldLookup "brightness" payload
        = lookupField (.obj [("entity_id", .str "light.kitchen"),
            ("brightness_pct", .num 50)]) "brightness" ∧
      fieldLookup "brightness_pct" payload
        = lookupField (.obj [("entity_id", .str "light.kitchen"),
            ("brightness_pct", .num 50)]) "brightness_pct" :=
  turnOn_upstream_shape
    (.obj [("entity_id", .str "light.kitchen"), ("brightness_pct", .num 50)])
    "light.kitchen" (by decide) (by rfl)

end HCA
